import Mathlib

/-! # Stochastic gates of `cppsim/gate_general.hpp`

A shallow embedding of the four composite gates of `gate_general.hpp`
(`QuantumGate_Probabilistic`, `QuantumGate_CPTP`, `QuantumGate_Instrument`,
`QuantumGate_Adaptive`) together with theorems about their selection and
branching logic.

Conventions of the embedding.

* `double` is idealised as exact rational arithmetic (`ℚ`): rounding is not modelled.
* The value returned by `random.uniform()` is an explicit argument `r` of every
  `update_quantum_state`.
* A gate acts on a state through a pointer; here a state is a value and a gate is
  a function from the state before the call to the state after it.
* `size_t` arithmetic is taken modulo `2 ^ 64`.
-/

namespace Qulacs

/-! ## Quantum state -/

/-- Modelled from the spec: the quantum state capability (`state.hpp` is not among the
sources). A state carries its quantum contents `data` and the classical register, an ordered
sequence of unsigned integers. -/
structure QuantumStateBase (V : Type) where
  data : V
  classical_register : List Nat

/-- Modelled from the spec: the numeric primitives of the state vector, `norm()` and
`scale_by(factor)` of the quantum state capability, which act on the quantum contents only. -/
structure StateOps (V : Type) where
  get_norm : V → ℚ
  normalize : ℚ → V → V

namespace QuantumStateBase

variable {V : Type}

/-- Modelled from the spec: `deep_copy()`, a new state with identical contents. -/
def copy (state : QuantumStateBase V) : QuantumStateBase V := state

/-- Modelled from the spec: `overwrite_from(other_state)`; `state.load other` is the content
of `state` after `state->load(other)`. -/
def load (_state other : QuantumStateBase V) : QuantumStateBase V := other

/-- Modelled from the spec: `norm()` of the state. -/
def get_norm (ops : StateOps V) (state : QuantumStateBase V) : ℚ :=
  ops.get_norm state.data

/-- Modelled from the spec: `scale_by(factor)`, the renormalisation `state->normalize(norm)`;
the classical register is not touched. -/
def normalize (ops : StateOps V) (norm : ℚ) (state : QuantumStateBase V) :
    QuantumStateBase V :=
  { state with data := ops.normalize norm state.data }

/-- Modelled from the spec: `classical_register()`, the full register as an ordered sequence. -/
def get_classical_register (state : QuantumStateBase V) : List Nat :=
  state.classical_register

/-- Modelled from the spec: the register read as a mapping from address to value; an address
beyond the stored sequence reads as `0`. -/
def get_classical_value (state : QuantumStateBase V) (index : Nat) : Nat :=
  state.classical_register.getD index 0

/-- Modelled from the spec: `set_classical_register(address, value)`; the stored sequence is
extended with zeros when the address lies beyond its end. -/
def set_classical_value (state : QuantumStateBase V) (index val : Nat) :
    QuantumStateBase V :=
  { state with
    classical_register :=
      (state.classical_register ++
        List.replicate (index + 1 - state.classical_register.length) 0).set index val }

end QuantumStateBase

/-- The effect of `gate->update_quantum_state(state)` of a sub-operation on the state. -/
abbrev QuantumGateBase (V : Type) : Type := QuantumStateBase V → QuantumStateBase V

/-! ## `std::lower_bound` -/

/-- The loop of `std::lower_bound` on the range `[first, first + len)` of `xs`: halve the
range, going right when the middle element is less than `val`. -/
def lower_bound_loop (xs : List ℚ) (val : ℚ) (first len : Nat) : Nat :=
  if 0 < len then
    let half := len / 2
    let middle := first + half
    if xs.getD middle 0 < val then
      lower_bound_loop xs val (middle + 1) (len - half - 1)
    else
      lower_bound_loop xs val first half
  else first
termination_by len
decreasing_by
  all_goals simp_wf
  all_goals omega

/-- The position (distance from `begin()`) returned by
`std::lower_bound(xs.begin(), xs.end(), val)`. -/
def lower_bound (xs : List ℚ) (val : ℚ) : Nat :=
  lower_bound_loop xs val 0 xs.length

/-- A list is sorted when its entries do not decrease with the position: the precondition
of `std::lower_bound`. -/
def SortedList (xs : List ℚ) : Prop :=
  ∀ i j, i ≤ j → j < xs.length → xs.getD i 0 ≤ xs.getD j 0

/-! ## `QuantumGate_Probabilistic` -/

/-- The number of values of `size_t`. -/
def SIZE_T_RANGE : Nat := 2 ^ 64

/-- The fields of `QuantumGate_Probabilistic`. -/
structure QuantumGate_Probabilistic (V : Type) where
  _distribution : List ℚ
  _cumulative_distribution : List ℚ
  _gate_list : List (QuantumGateBase V)

/-- The loop of the constructor: `sum += val; _cumulative_distribution.push_back(sum)` for
every `val` of the distribution. -/
def cumulative_loop : List ℚ → ℚ → List ℚ → List ℚ
  | [], _, cumulative => cumulative
  | val :: rest, sum, cumulative =>
    cumulative_loop rest (sum + val) (cumulative ++ [sum + val])

namespace QuantumGate_Probabilistic

variable {V : Type}

/-- The constructor `QuantumGate_Probabilistic(distribution, gate_list)`. -/
def construct (distribution : List ℚ) (gate_list : List (QuantumGateBase V)) :
    QuantumGate_Probabilistic V :=
  { _distribution := distribution
    _cumulative_distribution := cumulative_loop distribution 0 [0]
    _gate_list := gate_list }

/-- The position `ite - begin()` found by `std::lower_bound` in the cumulative distribution. -/
def ite (g : QuantumGate_Probabilistic V) (r : ℚ) : Nat :=
  lower_bound g._cumulative_distribution r

/-- The condition of `assert(ite != _cumulative_distribution.begin())`. -/
def assertion (g : QuantumGate_Probabilistic V) (r : ℚ) : Bool :=
  g.ite r != 0

/-- The value of `size_t gate_index = std::distance(begin, ite) - 1`. -/
def gate_index (g : QuantumGate_Probabilistic V) (r : ℚ) : Nat :=
  (g.ite r + SIZE_T_RANGE - 1) % SIZE_T_RANGE

/-- The method `update_quantum_state` for the draw `r` (the `assert` compiled out): the
sub-operation at `gate_index` is applied when `gate_index < _gate_list.size()`. -/
def update_quantum_state (g : QuantumGate_Probabilistic V) (r : ℚ)
    (state : QuantumStateBase V) : QuantumStateBase V :=
  if h : g.gate_index r < g._gate_list.length then
    (g._gate_list.get ⟨g.gate_index r, h⟩) state
  else state

/-- The `k`-th entry of the cumulative distribution. -/
def cumulative (g : QuantumGate_Probabilistic V) (k : Nat) : ℚ :=
  g._cumulative_distribution.getD k 0

end QuantumGate_Probabilistic

/-! ## `QuantumGate_CPTP` -/

/-- The fields of `QuantumGate_CPTP`. -/
structure QuantumGate_CPTP (V : Type) where
  _gate_list : List (QuantumGateBase V)

/-- The local variables of `QuantumGate_CPTP::update_quantum_state` when its `for` loop is
left. `committed` is a ghost field: the position in `_gate_list` of the gate at which the
branch `if (r < sum)` was taken, `none` when the loop ran to the end of the list. -/
structure CPTPLoopState (V : Type) where
  state : QuantumStateBase V
  buffer : QuantumStateBase V
  sum : ℚ
  committed : Option Nat

/-- What a caller observes of a branching `update_quantum_state`: the state after the call,
whether the warning was written to `std::cerr`, and the ghost position of the committed
gate. -/
structure BranchOutcome (V : Type) where
  state : QuantumStateBase V
  warning : Bool
  committed : Option Nat

namespace QuantumGate_CPTP

variable {V : Type}

/-- The loop `for (auto gate : _gate_list)` of `QuantumGate_CPTP::update_quantum_state`, run
on the gates still to be tried; `position` (ghost) is the list position of the first of
them. -/
def loop (ops : StateOps V) (r org_norm : ℚ) :
    List (QuantumGateBase V) → QuantumStateBase V → QuantumStateBase V → ℚ → Nat →
      CPTPLoopState V
  | [], state, buffer, sum, _ =>
    { state := state, buffer := buffer, sum := sum, committed := none }
  | gate :: rest, state, buffer, sum, position =>
    let buffer := gate buffer
    let norm := buffer.get_norm ops / org_norm
    let sum := sum + norm
    if r < sum then
      { state := (state.load buffer).normalize ops norm
        buffer := buffer
        sum := sum
        committed := some position }
    else
      loop ops r org_norm rest state (buffer.load state) sum (position + 1)

/-- The method `QuantumGate_CPTP::update_quantum_state` for the draw `r`. -/
def update_quantum_state (ops : StateOps V) (g : QuantumGate_CPTP V) (r : ℚ)
    (state : QuantumStateBase V) : BranchOutcome V :=
  let sum : ℚ := 0
  let org_norm := state.get_norm ops
  let buffer := state.copy
  let exit := loop ops r org_norm g._gate_list state buffer sum 0
  { state := exit.state
    warning := !(decide (r < exit.sum))
    committed := exit.committed }

end QuantumGate_CPTP

/-! ## `QuantumGate_Instrument` -/

/-- The fields of `QuantumGate_Instrument`. -/
structure QuantumGate_Instrument (V : Type) where
  _gate_list : List (QuantumGateBase V)
  _classical_register_address : Nat

/-- The local variables of `QuantumGate_Instrument::update_quantum_state` when its `for` loop
is left; `committed` is the ghost field of `CPTPLoopState`. The counter `UINT index` is
incremented at most once per gate of the list and is a natural number here. -/
structure InstrumentLoopState (V : Type) where
  state : QuantumStateBase V
  buffer : QuantumStateBase V
  sum : ℚ
  index : Nat
  committed : Option Nat

namespace QuantumGate_Instrument

variable {V : Type}

/-- The loop `for (auto gate : _gate_list)` of `QuantumGate_Instrument::update_quantum_state`;
`index` is the program variable, `position` (ghost) the list position of the first of the
gates still to be tried. -/
def loop (ops : StateOps V) (r org_norm : ℚ) :
    List (QuantumGateBase V) → QuantumStateBase V → QuantumStateBase V → ℚ → Nat → Nat →
      InstrumentLoopState V
  | [], state, buffer, sum, index, _ =>
    { state := state, buffer := buffer, sum := sum, index := index, committed := none }
  | gate :: rest, state, buffer, sum, index, position =>
    let buffer := gate buffer
    let norm := buffer.get_norm ops / org_norm
    let sum := sum + norm
    if r < sum then
      { state := (state.load buffer).normalize ops norm
        buffer := buffer
        sum := sum
        index := index
        committed := some position }
    else
      loop ops r org_norm rest state (buffer.load state) sum (index + 1) (position + 1)

/-- The method `QuantumGate_Instrument::update_quantum_state` for the draw `r`. -/
def update_quantum_state (ops : StateOps V) (g : QuantumGate_Instrument V) (r : ℚ)
    (state : QuantumStateBase V) : BranchOutcome V :=
  let sum : ℚ := 0
  let org_norm := state.get_norm ops
  let buffer := state.copy
  let index : Nat := 0
  let exit := loop ops r org_norm g._gate_list state buffer sum index 0
  { state := exit.state.set_classical_value g._classical_register_address exit.index
    warning := !(decide (r < exit.sum))
    committed := exit.committed }

end QuantumGate_Instrument

/-! ## `QuantumGate_Adaptive` -/

/-- The fields of `QuantumGate_Adaptive`. -/
structure QuantumGate_Adaptive (V : Type) where
  _gate : QuantumGateBase V
  _func : List Nat → Bool

namespace QuantumGate_Adaptive

variable {V : Type}

/-- The method `QuantumGate_Adaptive::update_quantum_state`. -/
def update_quantum_state (g : QuantumGate_Adaptive V) (state : QuantumStateBase V) :
    QuantumStateBase V :=
  let result := g._func state.get_classical_register
  if result then g._gate state else state

end QuantumGate_Adaptive

/-! ## `copy` of `QuantumGate_Probabilistic` -/

/-- The loop of `copy()`: `new_gate_list.push_back(item->copy())` for every `item` of the
gate list. The virtual `copy()` of the sub-operations is declared in `gate.hpp`, which is not
among the sources, and is the parameter `item_copy`. -/
def copy_loop {V : Type} (item_copy : QuantumGateBase V → QuantumGateBase V) :
    List (QuantumGateBase V) → List (QuantumGateBase V) → List (QuantumGateBase V)
  | [], new_gate_list => new_gate_list
  | item :: rest, new_gate_list => copy_loop item_copy rest (new_gate_list ++ [item_copy item])

/-- The method `QuantumGate_Probabilistic::copy`: the constructor applied to `_distribution`
and the list of copied sub-operations. -/
def QuantumGate_Probabilistic.copy {V : Type}
    (item_copy : QuantumGateBase V → QuantumGateBase V) (g : QuantumGate_Probabilistic V) :
    QuantumGate_Probabilistic V :=
  QuantumGate_Probabilistic.construct g._distribution (copy_loop item_copy g._gate_list [])

/-! ## `set_matrix` -/

/-- The type `CPPCTYPE` of `type.hpp`, `std::complex<double>`: real and imaginary part. -/
abbrev CPPCTYPE : Type := ℚ × ℚ

/-- The type `ComplexMatrix` of `type.hpp`, a dynamically sized row-major matrix: the list of
its rows. -/
abbrev ComplexMatrix : Type := List (List CPPCTYPE)

/-- The matrix `Eigen::MatrixXcd::Ones(rows, cols)`: every coefficient is `1`. -/
def Ones (rows cols : Nat) : ComplexMatrix :=
  List.replicate rows (List.replicate cols ((1 : ℚ), (0 : ℚ)))

/-- The identity matrix of size `n`, the matrix the claim compares with. -/
def identity_matrix (n : Nat) : ComplexMatrix :=
  (List.range n).map fun i =>
    (List.range n).map fun j => if i = j then ((1 : ℚ), (0 : ℚ)) else ((0 : ℚ), (0 : ℚ))

/-- What a call of `set_matrix` leaves behind: the lines written to `std::cerr` and the
content of the referenced matrix. -/
structure SetMatrixResult where
  cerr : List String
  matrix : ComplexMatrix

/-- The method `QuantumGate_Probabilistic::set_matrix`. -/
def QuantumGate_Probabilistic.set_matrix {V : Type} (_g : QuantumGate_Probabilistic V)
    (_matrix : ComplexMatrix) : SetMatrixResult :=
  { cerr := ["* Warning : Gate-matrix of probabilistic gate cannot be obtained. Identity matrix is returned."]
    matrix := Ones 1 1 }

/-- The method `QuantumGate_CPTP::set_matrix`. -/
def QuantumGate_CPTP.set_matrix {V : Type} (_g : QuantumGate_CPTP V)
    (_matrix : ComplexMatrix) : SetMatrixResult :=
  { cerr := ["* Warning : Gate-matrix of CPTP-map cannot be obtained. Identity matrix is returned."]
    matrix := Ones 1 1 }

/-- The method `QuantumGate_Instrument::set_matrix`. -/
def QuantumGate_Instrument.set_matrix {V : Type} (_g : QuantumGate_Instrument V)
    (_matrix : ComplexMatrix) : SetMatrixResult :=
  { cerr := ["* Warning : Gate-matrix of Instrument cannot be obtained. Identity matrix is returned."]
    matrix := Ones 1 1 }

/-- The method `QuantumGate_Adaptive::set_matrix`. -/
def QuantumGate_Adaptive.set_matrix {V : Type} (_g : QuantumGate_Adaptive V)
    (_matrix : ComplexMatrix) : SetMatrixResult :=
  { cerr := ["* Warning : Gate-matrix of Adaptive-gate cannot be obtained. Identity matrix is returned."]
    matrix := Ones 1 1 }

/-! ## Vocabulary of the specification -/

/-- The branch probability `p` of a gate on a state: the norm of the state after the gate
divided by the norm of the state before it. -/
def branch_probability {V : Type} (ops : StateOps V) (state : QuantumStateBase V)
    (gate : QuantumGateBase V) : ℚ :=
  (gate state).get_norm ops / state.get_norm ops

/-- The sum `p_0 + ... + p_(k-1)` of the branch probabilities of the first `k` gates. -/
def running_sum {V : Type} (ops : StateOps V) (state : QuantumStateBase V)
    (gate_list : List (QuantumGateBase V)) (k : Nat) : ℚ :=
  ((gate_list.take k).map (branch_probability ops state)).sum

/-! ## Concrete instances -/

/-- A state vector reduced to its norm: `normalize p` divides the norm by `p`. -/
def normOps : StateOps ℚ :=
  { get_norm := fun v => v
    normalize := fun p v => v / p }

/-- A gate that multiplies the norm by `c`. -/
def scale_gate (c : ℚ) : QuantumGateBase ℚ :=
  fun state => { state with data := c * state.data }

/-- A state of norm `1` whose classical register is `[7]`. -/
def unit_state : QuantumStateBase ℚ :=
  { data := 1, classical_register := [7] }

/-- A state whose quantum contents are a label and whose register is `reg`. -/
def labelled_state (label : Nat) (reg : List Nat) : QuantumStateBase Nat :=
  { data := label, classical_register := reg }

/-- A gate that overwrites the label with `n`. -/
def label_gate (n : Nat) : QuantumGateBase Nat :=
  fun state => { state with data := n }

/-- A predicate on the register: its first entry is `1`. -/
def first_is_one (reg : List Nat) : Bool :=
  reg.head? == some 1

/-! ## Theorems -/

theorem cumulative_loop_length (ws : List ℚ) (s : ℚ) (acc : List ℚ) :
    (cumulative_loop ws s acc).length = acc.length + ws.length := by
  induction ws generalizing s acc with
  | nil => simp [cumulative_loop]
  | cons w ws ih =>
    simp only [cumulative_loop, ih, List.length_append, List.length_cons, List.length_nil]
    omega

theorem cumulative_loop_getD_lt (ws : List ℚ) (s : ℚ) (acc : List ℚ) (k : Nat)
    (hk : k < acc.length) :
    (cumulative_loop ws s acc).getD k 0 = acc.getD k 0 := by
  induction ws generalizing s acc with
  | nil => simp [cumulative_loop]
  | cons w ws ih =>
    simp only [cumulative_loop]
    rw [ih _ _ (by simp; omega)]
    simp [List.getD_eq_getElem?_getD, List.getElem?_append_left hk]

theorem cumulative_loop_getD_ge (ws : List ℚ) (s : ℚ) (acc : List ℚ) (j : Nat)
    (hj : j < ws.length) :
    (cumulative_loop ws s acc).getD (acc.length + j) 0 = s + (ws.take (j + 1)).sum := by
  induction ws generalizing s acc j with
  | nil => simp at hj
  | cons w ws ih =>
    simp only [cumulative_loop]
    cases j with
    | zero =>
      rw [cumulative_loop_getD_lt _ _ _ _ (by simp)]
      simp [List.getD_eq_getElem?_getD]
    | succ j =>
      have h := ih (s + w) (acc ++ [s + w]) j (by simpa using hj)
      simp only [List.length_append, List.length_cons, List.length_nil] at h
      rw [show acc.length + (j + 1) = acc.length + (0 + 1) + j by omega, h]
      simp [List.take_succ_cons, add_assoc]

theorem lower_bound_loop_spec (xs : List ℚ) (val : ℚ) (hs : SortedList xs) :
    ∀ (len first : Nat), first + len ≤ xs.length →
      (∀ i, i < first → xs.getD i 0 < val) →
      (∀ i, first + len ≤ i → i < xs.length → val ≤ xs.getD i 0) →
      first ≤ lower_bound_loop xs val first len ∧
      lower_bound_loop xs val first len ≤ first + len ∧
      (∀ i, i < lower_bound_loop xs val first len → xs.getD i 0 < val) ∧
      (∀ i, lower_bound_loop xs val first len ≤ i → i < xs.length → val ≤ xs.getD i 0) := by
  intro len
  induction len using Nat.strong_induction_on with
  | _ len ih =>
    intro first hlen hlo hhi
    rw [lower_bound_loop]
    by_cases hpos : 0 < len
    · simp only [hpos, if_true]
      have hmid : first + len / 2 < xs.length := by omega
      by_cases hlt : xs.getD (first + len / 2) 0 < val
      · simp only [hlt, if_true]
        have h := ih (len - len / 2 - 1) (by omega) (first + len / 2 + 1) (by omega)
          (fun i hi => lt_of_le_of_lt (hs i (first + len / 2) (by omega) hmid) hlt)
          (fun i hi hi2 => hhi i (by omega) hi2)
        refine ⟨by omega, by omega, h.2.2.1, h.2.2.2⟩
      · simp only [hlt, if_false]
        have h := ih (len / 2) (by omega) first (by omega) hlo
          (fun i hi hi2 => le_trans (not_lt.mp hlt) (hs (first + len / 2) i hi hi2))
        refine ⟨h.1, by omega, h.2.2.1, h.2.2.2⟩
    · simp only [hpos, if_false]
      refine ⟨le_refl _, by omega, hlo, fun i hi hi2 => hhi i (by omega) hi2⟩

theorem lower_bound_spec (xs : List ℚ) (val : ℚ) (hs : SortedList xs) :
    lower_bound xs val ≤ xs.length ∧
    (∀ i, i < lower_bound xs val → xs.getD i 0 < val) ∧
    (∀ i, lower_bound xs val ≤ i → i < xs.length → val ≤ xs.getD i 0) := by
  have h := lower_bound_loop_spec xs val hs xs.length 0 (by omega)
    (fun i hi => absurd hi (Nat.not_lt_zero i)) (fun i hi hi2 => absurd hi2 (by omega))
  simp only [Nat.zero_add] at h
  exact ⟨h.2.1, h.2.2.1, h.2.2.2⟩

theorem sum_take_le_sum_take (ws : List ℚ) (hnonneg : ∀ w ∈ ws, 0 ≤ w) (i j : Nat)
    (hij : i ≤ j) : (ws.take i).sum ≤ (ws.take j).sum := by
  induction ws generalizing i j with
  | nil => simp
  | cons w ws ih =>
    have hw : 0 ≤ w := hnonneg w (by simp)
    have hrest : ∀ x ∈ ws, 0 ≤ x := fun x hx => hnonneg x (by simp [hx])
    cases i with
    | zero =>
      simp only [List.take_zero, List.sum_nil]
      apply List.sum_nonneg
      intro x hx
      exact hnonneg x (List.mem_of_mem_take hx)
    | succ i =>
      cases j with
      | zero => omega
      | succ j =>
        simp only [List.take_succ_cons, List.sum_cons]
        have := ih hrest i j (by omega)
        linarith

theorem construct_cumulative_length {V : Type} (distribution : List ℚ)
    (gate_list : List (QuantumGateBase V)) :
    (QuantumGate_Probabilistic.construct distribution gate_list)._cumulative_distribution.length
      = distribution.length + 1 := by
  simp [QuantumGate_Probabilistic.construct, cumulative_loop_length, Nat.add_comm]

theorem construct_cumulative_eq {V : Type} (distribution : List ℚ)
    (gate_list : List (QuantumGateBase V)) (k : Nat) (hk : k ≤ distribution.length) :
    (QuantumGate_Probabilistic.construct distribution gate_list).cumulative k
      = (distribution.take k).sum := by
  unfold QuantumGate_Probabilistic.cumulative QuantumGate_Probabilistic.construct
  cases k with
  | zero =>
    rw [cumulative_loop_getD_lt _ _ _ _ (by simp)]
    simp
  | succ k =>
    have h := cumulative_loop_getD_ge distribution 0 [0] k (by omega)
    simp only [List.length_cons, List.length_nil, zero_add] at h
    rw [Nat.add_comm 1 k] at h
    exact h

theorem construct_cumulative_mono {V : Type} (distribution : List ℚ)
    (gate_list : List (QuantumGateBase V)) (hnonneg : ∀ w ∈ distribution, 0 ≤ w)
    (i j : Nat) (hij : i ≤ j) (hj : j ≤ distribution.length) :
    (QuantumGate_Probabilistic.construct distribution gate_list).cumulative i
      ≤ (QuantumGate_Probabilistic.construct distribution gate_list).cumulative j := by
  rw [construct_cumulative_eq _ _ i (by omega), construct_cumulative_eq _ _ j hj]
  exact sum_take_le_sum_take distribution hnonneg i j hij

theorem construct_sorted {V : Type} (distribution : List ℚ)
    (gate_list : List (QuantumGateBase V)) (hnonneg : ∀ w ∈ distribution, 0 ≤ w) :
    SortedList
      (QuantumGate_Probabilistic.construct distribution gate_list)._cumulative_distribution := by
  intro i j hij hj
  rw [construct_cumulative_length] at hj
  exact construct_cumulative_mono distribution gate_list hnonneg i j hij (by omega)

/-- C9. The cumulative sequence built by the constructor of `QuantumGate_Probabilistic` from
`N` non-negative weights has length `N + 1`, starts with `0`, has the sum of the first `k`
weights as its `k`-th entry, and does not decrease. -/
theorem cumulative_monotonicity {V : Type} (distribution : List ℚ)
    (gate_list : List (QuantumGateBase V)) (hnonneg : ∀ w ∈ distribution, 0 ≤ w) :
    (QuantumGate_Probabilistic.construct distribution gate_list)._cumulative_distribution.length
        = distribution.length + 1 ∧
    (QuantumGate_Probabilistic.construct distribution gate_list)._cumulative_distribution.head?
        = some 0 ∧
    (∀ k, k ≤ distribution.length →
      (QuantumGate_Probabilistic.construct distribution gate_list)._cumulative_distribution[k]?
        = some ((distribution.take k).sum)) ∧
    (∀ i j, i ≤ j → j ≤ distribution.length →
      (QuantumGate_Probabilistic.construct distribution gate_list).cumulative i
        ≤ (QuantumGate_Probabilistic.construct distribution gate_list).cumulative j) := by
  have hlen := construct_cumulative_length distribution gate_list
  refine ⟨hlen, ?_, ?_, fun i j hij hj =>
    construct_cumulative_mono distribution gate_list hnonneg i j hij hj⟩
  · have h0 := construct_cumulative_eq distribution gate_list 0 (Nat.zero_le _)
    unfold QuantumGate_Probabilistic.cumulative at h0
    rw [List.head?_eq_getElem?]
    rw [List.getD_eq_getElem?_getD, List.getElem?_eq_getElem (by omega)] at h0
    rw [List.getElem?_eq_getElem (by omega)]
    simpa using h0
  · intro k hk
    have h := construct_cumulative_eq distribution gate_list k hk
    unfold QuantumGate_Probabilistic.cumulative at h
    rw [List.getD_eq_getElem?_getD, List.getElem?_eq_getElem (by omega)] at h
    rw [List.getElem?_eq_getElem (by omega)]
    simpa using h

/-- Witness of C9 on the weights `[3/10, 7/10]`. -/
theorem cumulative_monotonicity_witness :
    (∀ w ∈ [(3 : ℚ) / 10, 7 / 10], 0 ≤ w) ∧
    (QuantumGate_Probabilistic.construct [(3 : ℚ) / 10, 7 / 10]
        [label_gate 1, label_gate 2])._cumulative_distribution.length = 3 :=
  ⟨by intro w hw; simp at hw; rcases hw with h | h <;> rw [h] <;> norm_num,
   (cumulative_monotonicity [(3 : ℚ) / 10, 7 / 10] [label_gate 1, label_gate 2]
      (by intro w hw; simp at hw; rcases hw with h | h <;> rw [h] <;> norm_num)).1⟩

theorem probabilistic_ite_spec {V : Type} (distribution : List ℚ)
    (gate_list : List (QuantumGateBase V)) (hnonneg : ∀ w ∈ distribution, 0 ≤ w) (r : ℚ) :
    (QuantumGate_Probabilistic.construct distribution gate_list).ite r
        ≤ distribution.length + 1 ∧
    (∀ i, i < (QuantumGate_Probabilistic.construct distribution gate_list).ite r →
      (QuantumGate_Probabilistic.construct distribution gate_list).cumulative i < r) ∧
    (∀ i, (QuantumGate_Probabilistic.construct distribution gate_list).ite r ≤ i →
      i ≤ distribution.length →
      r ≤ (QuantumGate_Probabilistic.construct distribution gate_list).cumulative i) := by
  have h := lower_bound_spec
    (QuantumGate_Probabilistic.construct distribution gate_list)._cumulative_distribution r
    (construct_sorted distribution gate_list hnonneg)
  rw [construct_cumulative_length] at h
  exact ⟨h.1, h.2.1, fun i hi hi2 => h.2.2 i hi (by omega)⟩

theorem probabilistic_select {V : Type} (distribution : List ℚ)
    (gate_list : List (QuantumGateBase V)) (r : ℚ) (state : QuantumStateBase V)
    (hlen : distribution.length = gate_list.length)
    (hsize : gate_list.length < SIZE_T_RANGE)
    (hnonneg : ∀ w ∈ distribution, 0 ≤ w)
    (hpos : 0 < r)
    (htotal : r ≤ (QuantumGate_Probabilistic.construct distribution gate_list).cumulative
      distribution.length) :
    ∃ i, ∃ hi : i < gate_list.length,
      (QuantumGate_Probabilistic.construct distribution gate_list).cumulative i < r ∧
      r ≤ (QuantumGate_Probabilistic.construct distribution gate_list).cumulative (i + 1) ∧
      (∀ j, j < distribution.length →
        (QuantumGate_Probabilistic.construct distribution gate_list).cumulative j < r →
        r ≤ (QuantumGate_Probabilistic.construct distribution gate_list).cumulative (j + 1) →
        j = i) ∧
      (QuantumGate_Probabilistic.construct distribution gate_list).ite r = i + 1 ∧
      (QuantumGate_Probabilistic.construct distribution gate_list).gate_index r = i ∧
      (QuantumGate_Probabilistic.construct distribution gate_list).update_quantum_state r state
        = gate_list.get ⟨i, hi⟩ state := by
  obtain ⟨hle, hlo, hhi⟩ := probabilistic_ite_spec distribution gate_list hnonneg r
  have hmono := construct_cumulative_mono distribution gate_list hnonneg
  have hzero := construct_cumulative_eq distribution gate_list 0 (Nat.zero_le _)
  simp only [List.take_zero, List.sum_nil] at hzero
  set g := QuantumGate_Probabilistic.construct distribution gate_list with hg
  -- the position found is neither the first one nor past the last entry
  have hp1 : 1 ≤ g.ite r := by
    by_contra hcon
    have h0 : g.ite r = 0 := by omega
    have := hhi 0 (by omega) (Nat.zero_le _)
    rw [hzero] at this
    exact absurd hpos (not_lt.mpr this)
  have hp2 : g.ite r ≤ distribution.length := by
    by_contra hcon
    have := hlo distribution.length (by omega)
    exact absurd htotal (not_le.mpr this)
  have hidx : g.gate_index r = g.ite r - 1 := by
    unfold QuantumGate_Probabilistic.gate_index
    rw [show g.ite r + SIZE_T_RANGE - 1 = (g.ite r - 1) + SIZE_T_RANGE by omega,
      Nat.add_mod_right]
    exact Nat.mod_eq_of_lt (by omega)
  have hi : g.ite r - 1 < gate_list.length := by omega
  refine ⟨g.ite r - 1, hi, hlo _ (by omega), ?_, ?_, by omega, hidx, ?_⟩
  · have := hhi (g.ite r) (le_refl _) hp2
    rwa [show g.ite r - 1 + 1 = g.ite r by omega]
  · intro j hj hj1 hj2
    have h1 : j < g.ite r := by
      by_contra hcon
      exact absurd hj1 (not_lt.mpr (hhi j (by omega) (by omega)))
    have h2 : g.ite r ≤ j + 1 := by
      by_contra hcon
      exact absurd hj2 (not_le.mpr (hlo (j + 1) (by omega)))
    omega
  · unfold QuantumGate_Probabilistic.update_quantum_state
    have hgl : g._gate_list = gate_list := rfl
    have hi2 : g.gate_index r < g._gate_list.length := by rw [hidx, hgl]; exact hi
    rw [dif_pos hi2]
    simp only [hidx]
    rfl

theorem probabilistic_beyond_total {V : Type} (distribution : List ℚ)
    (gate_list : List (QuantumGateBase V)) (r : ℚ)
    (hlen : distribution.length = gate_list.length)
    (hsize : gate_list.length < SIZE_T_RANGE)
    (hnonneg : ∀ w ∈ distribution, 0 ≤ w)
    (htotal : (QuantumGate_Probabilistic.construct distribution gate_list).cumulative
      distribution.length < r) :
    (QuantumGate_Probabilistic.construct distribution gate_list).ite r
        = distribution.length + 1 ∧
    (QuantumGate_Probabilistic.construct distribution gate_list).gate_index r
        = gate_list.length := by
  obtain ⟨hle, hlo, hhi⟩ := probabilistic_ite_spec distribution gate_list hnonneg r
  set g := QuantumGate_Probabilistic.construct distribution gate_list with hg
  have hp : g.ite r = distribution.length + 1 := by
    by_contra hcon
    have := hhi distribution.length (by omega) (le_refl _)
    exact absurd htotal (not_lt.mpr this)
  refine ⟨hp, ?_⟩
  unfold QuantumGate_Probabilistic.gate_index
  rw [hp, show distribution.length + 1 + SIZE_T_RANGE - 1
    = distribution.length + SIZE_T_RANGE by omega, Nat.add_mod_right]
  rw [hlen]
  exact Nat.mod_eq_of_lt hsize

/-- C1, as amended. For `N` non-negative weights and `N` sub-operations and every draw `r`
with `0 < r < 1` and `r` below the total weight, `update_quantum_state` applies exactly the
sub-operation at the unique index `i` with `cumulative[i] < r ≤ cumulative[i+1]`: a draw equal
to a cumulative boundary selects the operation whose interval ends there. -/
theorem mixture_selection {V : Type} (distribution : List ℚ)
    (gate_list : List (QuantumGateBase V)) (r : ℚ) (state : QuantumStateBase V)
    (hlen : distribution.length = gate_list.length)
    (hsize : gate_list.length < SIZE_T_RANGE)
    (hnonneg : ∀ w ∈ distribution, 0 ≤ w)
    (hpos : 0 < r) (hone : r < 1)
    (htotal : r < (QuantumGate_Probabilistic.construct distribution gate_list).cumulative
      distribution.length) :
    ∃ i, ∃ hi : i < gate_list.length,
      (QuantumGate_Probabilistic.construct distribution gate_list).cumulative i < r ∧
      r ≤ (QuantumGate_Probabilistic.construct distribution gate_list).cumulative (i + 1) ∧
      (∀ j, j < distribution.length →
        (QuantumGate_Probabilistic.construct distribution gate_list).cumulative j < r →
        r ≤ (QuantumGate_Probabilistic.construct distribution gate_list).cumulative (j + 1) →
        j = i) ∧
      (QuantumGate_Probabilistic.construct distribution gate_list).gate_index r = i ∧
      (QuantumGate_Probabilistic.construct distribution gate_list).update_quantum_state r state
        = gate_list.get ⟨i, hi⟩ state := by
  have _ := hone
  obtain ⟨i, hi, h1, h2, h3, _, h5, h6⟩ :=
    probabilistic_select distribution gate_list r state hlen hsize hnonneg hpos (le_of_lt htotal)
  exact ⟨i, hi, h1, h2, h3, h5, h6⟩

/-- Witness of C1 as amended: weights `[3/10, 7/10]` and the draw `0.29999`. -/
theorem mixture_selection_witness :
    ∃ i, ∃ hi : i < [label_gate 1, label_gate 2].length,
      (QuantumGate_Probabilistic.construct [(3 : ℚ) / 10, 7 / 10]
        [label_gate 1, label_gate 2]).cumulative i < 29999 / 100000 ∧
      (29999 / 100000 : ℚ) ≤ (QuantumGate_Probabilistic.construct [(3 : ℚ) / 10, 7 / 10]
        [label_gate 1, label_gate 2]).cumulative (i + 1) ∧
      (∀ j, j < [(3 : ℚ) / 10, 7 / 10].length →
        (QuantumGate_Probabilistic.construct [(3 : ℚ) / 10, 7 / 10]
          [label_gate 1, label_gate 2]).cumulative j < 29999 / 100000 →
        (29999 / 100000 : ℚ) ≤ (QuantumGate_Probabilistic.construct [(3 : ℚ) / 10, 7 / 10]
          [label_gate 1, label_gate 2]).cumulative (j + 1) →
        j = i) ∧
      (QuantumGate_Probabilistic.construct [(3 : ℚ) / 10, 7 / 10]
        [label_gate 1, label_gate 2]).gate_index (29999 / 100000) = i ∧
      (QuantumGate_Probabilistic.construct [(3 : ℚ) / 10, 7 / 10]
        [label_gate 1, label_gate 2]).update_quantum_state (29999 / 100000)
          (labelled_state 0 [])
        = [label_gate 1, label_gate 2].get ⟨i, hi⟩ (labelled_state 0 []) :=
  mixture_selection [(3 : ℚ) / 10, 7 / 10] [label_gate 1, label_gate 2] (29999 / 100000)
    (labelled_state 0 []) rfl (by simp [SIZE_T_RANGE])
    (by intro w hw; simp at hw; rcases hw with h | h <;> rw [h] <;> norm_num)
    (by norm_num) (by norm_num)
    (by
      simp only [QuantumGate_Probabilistic.cumulative, QuantumGate_Probabilistic.construct,
        cumulative_loop]
      norm_num)

/-- Counterexample to C1 as stated: for the weights `[3/10, 7/10]` the draw `3/10` lies in
`[0, 1)`, below the total weight, and satisfies `cumulative[1] ≤ r < cumulative[2]`, yet
`gate_index` is `0` and the first sub-operation is applied, not the second. -/
theorem mixture_selection_counterexample :
    (0 : ℚ) ≤ 3 / 10 ∧ (3 / 10 : ℚ) < 1 ∧
    (QuantumGate_Probabilistic.construct [(3 : ℚ) / 10, 7 / 10]
      [label_gate 1, label_gate 2]).cumulative 1 ≤ 3 / 10 ∧
    (3 / 10 : ℚ) < (QuantumGate_Probabilistic.construct [(3 : ℚ) / 10, 7 / 10]
      [label_gate 1, label_gate 2]).cumulative 2 ∧
    (QuantumGate_Probabilistic.construct [(3 : ℚ) / 10, 7 / 10]
      [label_gate 1, label_gate 2]).gate_index (3 / 10) = 0 ∧
    (QuantumGate_Probabilistic.construct [(3 : ℚ) / 10, 7 / 10]
      [label_gate 1, label_gate 2]).update_quantum_state (3 / 10) (labelled_state 0 [])
        = label_gate 1 (labelled_state 0 []) ∧
    (QuantumGate_Probabilistic.construct [(3 : ℚ) / 10, 7 / 10]
      [label_gate 1, label_gate 2]).update_quantum_state (3 / 10) (labelled_state 0 [])
        ≠ label_gate 2 (labelled_state 0 []) := by
  have hidx : (QuantumGate_Probabilistic.construct [(3 : ℚ) / 10, 7 / 10]
      [label_gate 1, label_gate 2]).gate_index (3 / 10) = 0 := by
    simp [QuantumGate_Probabilistic.gate_index, QuantumGate_Probabilistic.ite,
      QuantumGate_Probabilistic.construct, cumulative_loop, lower_bound, lower_bound_loop,
      SIZE_T_RANGE]
  have hupd : (QuantumGate_Probabilistic.construct [(3 : ℚ) / 10, 7 / 10]
      [label_gate 1, label_gate 2]).update_quantum_state (3 / 10) (labelled_state 0 [])
        = label_gate 1 (labelled_state 0 []) := by
    unfold QuantumGate_Probabilistic.update_quantum_state
    simp only [hidx]
    simp [QuantumGate_Probabilistic.construct]
  refine ⟨by norm_num, by norm_num, ?_, ?_, hidx, hupd, ?_⟩
  · simp only [QuantumGate_Probabilistic.cumulative, QuantumGate_Probabilistic.construct,
      cumulative_loop]
    norm_num
  · simp only [QuantumGate_Probabilistic.cumulative, QuantumGate_Probabilistic.construct,
      cumulative_loop]
    norm_num
  · rw [hupd]
    simp [label_gate, labelled_state]

/-- C2, as amended. For `N` non-negative weights and `N` sub-operations and every draw `r`
strictly greater than the total weight `cumulative[N]`, `update_quantum_state` applies no
sub-operation (`gate_index` is not below the size of the gate list) and returns the state
unchanged. -/
theorem mixture_remainder {V : Type} (distribution : List ℚ)
    (gate_list : List (QuantumGateBase V)) (r : ℚ) (state : QuantumStateBase V)
    (hlen : distribution.length = gate_list.length)
    (hsize : gate_list.length < SIZE_T_RANGE)
    (hnonneg : ∀ w ∈ distribution, 0 ≤ w)
    (htotal : (QuantumGate_Probabilistic.construct distribution gate_list).cumulative
      distribution.length < r) :
    ¬ ((QuantumGate_Probabilistic.construct distribution gate_list).gate_index r
        < gate_list.length) ∧
    (QuantumGate_Probabilistic.construct distribution gate_list).update_quantum_state r state
      = state := by
  obtain ⟨_, hidx⟩ :=
    probabilistic_beyond_total distribution gate_list r hlen hsize hnonneg htotal
  refine ⟨by omega, ?_⟩
  unfold QuantumGate_Probabilistic.update_quantum_state
  rw [dif_neg]
  rw [hidx]
  exact Nat.lt_irrefl _

/-- Witness of C2 as amended: weights `[3/10, 6/10]`, which sum to `0.9`, and the draw
`0.95`. -/
theorem mixture_remainder_witness :
    ¬ ((QuantumGate_Probabilistic.construct [(3 : ℚ) / 10, 6 / 10]
        [label_gate 1, label_gate 2]).gate_index (95 / 100)
        < [label_gate 1, label_gate 2].length) ∧
    (QuantumGate_Probabilistic.construct [(3 : ℚ) / 10, 6 / 10]
      [label_gate 1, label_gate 2]).update_quantum_state (95 / 100) (labelled_state 0 [])
      = labelled_state 0 [] :=
  mixture_remainder [(3 : ℚ) / 10, 6 / 10] [label_gate 1, label_gate 2] (95 / 100)
    (labelled_state 0 []) rfl (by simp [SIZE_T_RANGE])
    (by intro w hw; simp at hw; rcases hw with h | h <;> rw [h] <;> norm_num)
    (by
      simp only [QuantumGate_Probabilistic.cumulative, QuantumGate_Probabilistic.construct,
        cumulative_loop]
      norm_num)

/-- Counterexample to C2 as stated: for the weights `[3/10, 7/10]` the draw `1` is not
strictly less than the total weight `cumulative[2] = 1`, yet `gate_index` is `1`, the second
sub-operation is applied and the state changes. -/
theorem mixture_remainder_counterexample :
    (QuantumGate_Probabilistic.construct [(3 : ℚ) / 10, 7 / 10]
      [label_gate 1, label_gate 2]).cumulative 2 ≤ 1 ∧
    (QuantumGate_Probabilistic.construct [(3 : ℚ) / 10, 7 / 10]
      [label_gate 1, label_gate 2]).gate_index 1 = 1 ∧
    (QuantumGate_Probabilistic.construct [(3 : ℚ) / 10, 7 / 10]
      [label_gate 1, label_gate 2]).update_quantum_state 1 (labelled_state 0 [])
        = label_gate 2 (labelled_state 0 []) ∧
    (QuantumGate_Probabilistic.construct [(3 : ℚ) / 10, 7 / 10]
      [label_gate 1, label_gate 2]).update_quantum_state 1 (labelled_state 0 [])
        ≠ labelled_state 0 [] := by
  have hidx : (QuantumGate_Probabilistic.construct [(3 : ℚ) / 10, 7 / 10]
      [label_gate 1, label_gate 2]).gate_index 1 = 1 := by
    simp [QuantumGate_Probabilistic.gate_index, QuantumGate_Probabilistic.ite,
      QuantumGate_Probabilistic.construct, cumulative_loop, lower_bound, lower_bound_loop,
      SIZE_T_RANGE]
    norm_num
  have hupd : (QuantumGate_Probabilistic.construct [(3 : ℚ) / 10, 7 / 10]
      [label_gate 1, label_gate 2]).update_quantum_state 1 (labelled_state 0 [])
        = label_gate 2 (labelled_state 0 []) := by
    unfold QuantumGate_Probabilistic.update_quantum_state
    simp only [hidx]
    simp [QuantumGate_Probabilistic.construct]
  refine ⟨?_, hidx, hupd, ?_⟩
  · simp only [QuantumGate_Probabilistic.cumulative, QuantumGate_Probabilistic.construct,
      cumulative_loop]
    norm_num
  · rw [hupd]
    simp [label_gate, labelled_state]

/-! ### The branching loop of `QuantumGate_CPTP` -/

theorem running_sum_zero {V : Type} (ops : StateOps V) (state : QuantumStateBase V)
    (gate_list : List (QuantumGateBase V)) : running_sum ops state gate_list 0 = 0 := by
  simp [running_sum]

theorem running_sum_cons {V : Type} (ops : StateOps V) (state : QuantumStateBase V)
    (gate : QuantumGateBase V) (rest : List (QuantumGateBase V)) (k : Nat) :
    running_sum ops state (gate :: rest) (k + 1)
      = branch_probability ops state gate + running_sum ops state rest k := by
  simp [running_sum]

theorem running_sum_succ {V : Type} (ops : StateOps V) (state : QuantumStateBase V)
    (gate_list : List (QuantumGateBase V)) (k : Nat) (hk : k < gate_list.length) :
    running_sum ops state gate_list (k + 1)
      = running_sum ops state gate_list k
        + branch_probability ops state (gate_list.get ⟨k, hk⟩) := by
  induction gate_list generalizing k with
  | nil => simp at hk
  | cons gate rest ih =>
    cases k with
    | zero => simp [running_sum]
    | succ k =>
      rw [running_sum_cons, running_sum_cons, ih k (by simpa using hk)]
      simp [add_assoc]

theorem cptp_loop_commit {V : Type} (ops : StateOps V) (r : ℚ) (state : QuantumStateBase V)
    (gate_list : List (QuantumGateBase V)) (sum : ℚ) (position k : Nat)
    (hk : k < gate_list.length)
    (hleast : ∀ j, j < k → sum + running_sum ops state gate_list (j + 1) ≤ r)
    (hexceeds : r < sum + running_sum ops state gate_list (k + 1)) :
    QuantumGate_CPTP.loop ops r (state.get_norm ops) gate_list state state sum position
      = { state := (gate_list.get ⟨k, hk⟩ state).normalize ops
            (branch_probability ops state (gate_list.get ⟨k, hk⟩))
          buffer := gate_list.get ⟨k, hk⟩ state
          sum := sum + running_sum ops state gate_list (k + 1)
          committed := some (position + k) } := by
  induction gate_list generalizing sum position k with
  | nil => simp at hk
  | cons gate rest ih =>
    cases k with
    | zero =>
      have hex : r < sum + (gate state).get_norm ops / state.get_norm ops := by
        simpa [running_sum, branch_probability] using hexceeds
      simp [QuantumGate_CPTP.loop, hex, QuantumStateBase.load, running_sum,
        branch_probability]
    | succ k =>
      have h0 := hleast 0 (Nat.succ_pos k)
      have hnot : ¬ r < sum + (gate state).get_norm ops / state.get_norm ops := by
        simpa [running_sum, branch_probability] using h0
      have hrec := ih (sum + branch_probability ops state gate) (position + 1) k
        (by simpa using hk)
        (fun j hj => by
          have := hleast (j + 1) (by omega)
          rw [running_sum_cons] at this
          linarith)
        (by rw [running_sum_cons] at hexceeds; linarith)
      simp only [QuantumGate_CPTP.loop, hnot, if_false, QuantumStateBase.load]
      rw [show sum + (gate state).get_norm ops / state.get_norm ops
        = sum + branch_probability ops state gate from rfl, hrec, running_sum_cons]
      simp [add_assoc, Nat.add_comm, Nat.add_left_comm]

theorem cptp_loop_reject {V : Type} (ops : StateOps V) (r : ℚ) (state : QuantumStateBase V)
    (gate_list : List (QuantumGateBase V)) (sum : ℚ) (position : Nat)
    (hall : ∀ j, j < gate_list.length →
      sum + running_sum ops state gate_list (j + 1) ≤ r) :
    QuantumGate_CPTP.loop ops r (state.get_norm ops) gate_list state state sum position
      = { state := state
          buffer := state
          sum := sum + running_sum ops state gate_list gate_list.length
          committed := none } := by
  induction gate_list generalizing sum position with
  | nil => simp [QuantumGate_CPTP.loop, running_sum]
  | cons gate rest ih =>
    have h0 := hall 0 (by simp)
    have hnot : ¬ r < sum + (gate state).get_norm ops / state.get_norm ops := by
      simpa [running_sum, branch_probability] using h0
    have hrec := ih (sum + branch_probability ops state gate) (position + 1)
      (fun j hj => by
        have := hall (j + 1) (by simpa using hj)
        rw [running_sum_cons] at this
        linarith)
    simp only [QuantumGate_CPTP.loop, hnot, if_false, QuantumStateBase.load]
    rw [show sum + (gate state).get_norm ops / state.get_norm ops
      = sum + branch_probability ops state gate from rfl, hrec, List.length_cons,
      running_sum_cons]
    simp [add_assoc]

theorem cptp_loop_committed_lt {V : Type} (ops : StateOps V) (r org_norm : ℚ)
    (gate_list : List (QuantumGateBase V)) (state buffer : QuantumStateBase V) (sum : ℚ)
    (position k : Nat)
    (h : (QuantumGate_CPTP.loop ops r org_norm gate_list state buffer sum position).committed
      = some k) :
    r < (QuantumGate_CPTP.loop ops r org_norm gate_list state buffer sum position).sum := by
  induction gate_list generalizing buffer sum position with
  | nil => simp [QuantumGate_CPTP.loop] at h
  | cons gate rest ih =>
    simp only [QuantumGate_CPTP.loop] at h ⊢
    split
    · assumption
    · rename_i hnot
      rw [if_neg hnot] at h
      exact ih _ _ _ h

theorem exists_least_exceeding (f : Nat → ℚ) (r : ℚ) (n : Nat)
    (h : ∃ k, k < n ∧ r < f (k + 1)) :
    ∃ k, k < n ∧ r < f (k + 1) ∧ ∀ j, j < k → f (j + 1) ≤ r := by
  classical
  refine ⟨Nat.find h, (Nat.find_spec h).1, (Nat.find_spec h).2, ?_⟩
  intro j hj
  have hmin := Nat.find_min h hj
  have hjn : j < n := lt_trans hj (Nat.find_spec h).1
  by_contra hcon
  exact hmin ⟨hjn, not_le.mp hcon⟩

theorem cptp_update_commit {V : Type} (ops : StateOps V) (g : QuantumGate_CPTP V) (r : ℚ)
    (state : QuantumStateBase V) (k : Nat) (hk : k < g._gate_list.length)
    (hleast : ∀ j, j < k → running_sum ops state g._gate_list (j + 1) ≤ r)
    (hexceeds : r < running_sum ops state g._gate_list (k + 1)) :
    QuantumGate_CPTP.update_quantum_state ops g r state
      = { state := (g._gate_list.get ⟨k, hk⟩ state).normalize ops
            (branch_probability ops state (g._gate_list.get ⟨k, hk⟩))
          warning := false
          committed := some k } := by
  have h := cptp_loop_commit ops r state g._gate_list 0 0 k hk
    (fun j hj => by simpa using hleast j hj) (by simpa using hexceeds)
  simp only [QuantumGate_CPTP.update_quantum_state, QuantumStateBase.copy, h]
  simp [hexceeds]

theorem cptp_update_reject {V : Type} (ops : StateOps V) (g : QuantumGate_CPTP V) (r : ℚ)
    (state : QuantumStateBase V) (hr : 0 ≤ r)
    (hall : ∀ j, j < g._gate_list.length → running_sum ops state g._gate_list (j + 1) ≤ r) :
    QuantumGate_CPTP.update_quantum_state ops g r state
      = { state := state, warning := true, committed := none } := by
  have h := cptp_loop_reject ops r state g._gate_list 0 0
    (fun j hj => by simpa using hall j hj)
  simp only [QuantumGate_CPTP.update_quantum_state, QuantumStateBase.copy, h]
  have hfinal : running_sum ops state g._gate_list g._gate_list.length ≤ r := by
    cases hlen : g._gate_list.length with
    | zero => rw [running_sum_zero]; exact hr
    | succ n => exact hall n (by omega)
  simp [not_lt.mpr hfinal]

/-- C3. For a state of non-zero norm, when `k` is the least list position whose running sum
`p_0 + ... + p_k` of branch probabilities (each taken on the original state) exceeds the draw
`r`, `QuantumGate_CPTP::update_quantum_state` commits the gate at position `k`, and the state
after the call is that gate applied to the original state, renormalised by `p_k`; no warning
is written. -/
theorem channel_branch_selection {V : Type} (ops : StateOps V) (g : QuantumGate_CPTP V)
    (r : ℚ) (state : QuantumStateBase V) (hnorm : state.get_norm ops ≠ 0)
    (k : Nat) (hk : k < g._gate_list.length)
    (hleast : ∀ j, j < k → ¬ r < running_sum ops state g._gate_list (j + 1))
    (hexceeds : r < running_sum ops state g._gate_list (k + 1)) :
    (QuantumGate_CPTP.update_quantum_state ops g r state).committed = some k ∧
    (QuantumGate_CPTP.update_quantum_state ops g r state).state
      = (g._gate_list.get ⟨k, hk⟩ state).normalize ops
          (branch_probability ops state (g._gate_list.get ⟨k, hk⟩)) ∧
    (QuantumGate_CPTP.update_quantum_state ops g r state).warning = false := by
  have _ := hnorm
  rw [cptp_update_commit ops g r state k hk (fun j hj => not_lt.mp (hleast j hj)) hexceeds]
  exact ⟨rfl, rfl, rfl⟩

/-- Witness of C3: branches of probabilities `1/4, 1/2, 1/4` on a state of norm `1` and the
draw `6/10` commit the second branch. -/
theorem channel_branch_selection_witness :
    (QuantumGate_CPTP.update_quantum_state normOps
      { _gate_list := [scale_gate (1 / 4), scale_gate (1 / 2), scale_gate (1 / 4)] }
      (6 / 10) unit_state).committed = some 1 ∧
    (QuantumGate_CPTP.update_quantum_state normOps
      { _gate_list := [scale_gate (1 / 4), scale_gate (1 / 2), scale_gate (1 / 4)] }
      (6 / 10) unit_state).state
      = (scale_gate (1 / 2) unit_state).normalize normOps
          (branch_probability normOps unit_state (scale_gate (1 / 2))) ∧
    (QuantumGate_CPTP.update_quantum_state normOps
      { _gate_list := [scale_gate (1 / 4), scale_gate (1 / 2), scale_gate (1 / 4)] }
      (6 / 10) unit_state).warning = false :=
  channel_branch_selection normOps
    { _gate_list := [scale_gate (1 / 4), scale_gate (1 / 2), scale_gate (1 / 4)] }
    (6 / 10) unit_state
    (by simp [QuantumStateBase.get_norm, normOps, unit_state])
    1 (by simp)
    (by
      intro j hj
      interval_cases j
      simp [running_sum, branch_probability, QuantumStateBase.get_norm, normOps, unit_state,
        scale_gate]
      norm_num)
    (by
      simp [running_sum, branch_probability, QuantumStateBase.get_norm, normOps, unit_state,
        scale_gate]
      norm_num)

/-- C5. For a draw `r ≥ 0`: when no running sum of branch probabilities exceeds `r` (the
empty branch list included), `QuantumGate_CPTP::update_quantum_state` commits no branch,
returns the state unchanged and writes the warning; and whenever the warning is written, no
branch was committed. -/
theorem channel_deficiency {V : Type} (ops : StateOps V) (g : QuantumGate_CPTP V)
    (r : ℚ) (state : QuantumStateBase V) (hr : 0 ≤ r) :
    ((∀ j, j < g._gate_list.length → ¬ r < running_sum ops state g._gate_list (j + 1)) →
      (QuantumGate_CPTP.update_quantum_state ops g r state).committed = none ∧
      (QuantumGate_CPTP.update_quantum_state ops g r state).state = state ∧
      (QuantumGate_CPTP.update_quantum_state ops g r state).warning = true) ∧
    ((QuantumGate_CPTP.update_quantum_state ops g r state).warning = true →
      (QuantumGate_CPTP.update_quantum_state ops g r state).committed = none) := by
  constructor
  · intro hall
    rw [cptp_update_reject ops g r state hr (fun j hj => not_lt.mp (hall j hj))]
    exact ⟨rfl, rfl, rfl⟩
  · intro hwarn
    cases hc : (QuantumGate_CPTP.update_quantum_state ops g r state).committed with
    | none => rfl
    | some k =>
      have hlt := cptp_loop_committed_lt ops r (state.get_norm ops) g._gate_list state
        state.copy 0 0 k hc
      simp only [QuantumGate_CPTP.update_quantum_state] at hwarn
      simp [hlt] at hwarn

/-- Witness of C5: branch probabilities `1/2` and `3/10`, which sum to `0.8`, and the draw
`0.9`. -/
theorem channel_deficiency_witness :
    (QuantumGate_CPTP.update_quantum_state normOps
      { _gate_list := [scale_gate (1 / 2), scale_gate (3 / 10)] }
      (9 / 10) unit_state).committed = none ∧
    (QuantumGate_CPTP.update_quantum_state normOps
      { _gate_list := [scale_gate (1 / 2), scale_gate (3 / 10)] }
      (9 / 10) unit_state).state = unit_state ∧
    (QuantumGate_CPTP.update_quantum_state normOps
      { _gate_list := [scale_gate (1 / 2), scale_gate (3 / 10)] }
      (9 / 10) unit_state).warning = true :=
  (channel_deficiency normOps { _gate_list := [scale_gate (1 / 2), scale_gate (3 / 10)] }
    (9 / 10) unit_state (by norm_num)).1
    (by
      intro j hj
      simp at hj
      interval_cases j <;>
        simp [running_sum, branch_probability, QuantumStateBase.get_norm, normOps,
          unit_state, scale_gate] <;> norm_num)

/-! ### The classical register -/

theorem get_set_classical_value_same {V : Type} (state : QuantumStateBase V)
    (index val : Nat) :
    (state.set_classical_value index val).get_classical_value index = val := by
  unfold QuantumStateBase.get_classical_value QuantumStateBase.set_classical_value
  show ((state.classical_register ++
    List.replicate (index + 1 - state.classical_register.length) 0).set index val).getD
      index 0 = val
  rw [List.getD_eq_getElem?_getD, List.getElem?_set_self]
  · simp
  · simp; omega

theorem get_set_classical_value_other {V : Type} (state : QuantumStateBase V)
    (index val other : Nat) (h : other ≠ index) :
    (state.set_classical_value index val).get_classical_value other
      = state.get_classical_value other := by
  unfold QuantumStateBase.get_classical_value QuantumStateBase.set_classical_value
  show ((state.classical_register ++
    List.replicate (index + 1 - state.classical_register.length) 0).set index val).getD
      other 0 = state.classical_register.getD other 0
  rw [List.getD_eq_getElem?_getD, List.getElem?_set_ne (Ne.symm h),
    List.getD_eq_getElem?_getD]
  by_cases hb : other < state.classical_register.length
  · rw [List.getElem?_append_left hb]
  · rw [List.getElem?_append_right (by omega)]
    have hnone : state.classical_register[other]? = none :=
      List.getElem?_eq_none (by omega)
    rw [hnone]
    simp only [List.getElem?_replicate]
    split <;> rfl

/-! ### The branching loop of `QuantumGate_Instrument` -/

theorem instrument_loop_eq_cptp_loop {V : Type} (ops : StateOps V) (r org_norm : ℚ)
    (gate_list : List (QuantumGateBase V)) (state buffer : QuantumStateBase V) (sum : ℚ)
    (index position : Nat) :
    (QuantumGate_Instrument.loop ops r org_norm gate_list state buffer sum index
        position).state
      = (QuantumGate_CPTP.loop ops r org_norm gate_list state buffer sum position).state ∧
    (QuantumGate_Instrument.loop ops r org_norm gate_list state buffer sum index
        position).sum
      = (QuantumGate_CPTP.loop ops r org_norm gate_list state buffer sum position).sum ∧
    (QuantumGate_Instrument.loop ops r org_norm gate_list state buffer sum index
        position).committed
      = (QuantumGate_CPTP.loop ops r org_norm gate_list state buffer sum position).committed := by
  induction gate_list generalizing buffer sum index position with
  | nil => simp [QuantumGate_Instrument.loop, QuantumGate_CPTP.loop]
  | cons gate rest ih =>
    simp only [QuantumGate_Instrument.loop, QuantumGate_CPTP.loop]
    split
    · exact ⟨rfl, rfl, rfl⟩
    · exact ih _ _ _ _

theorem instrument_loop_index {V : Type} (ops : StateOps V) (r org_norm : ℚ)
    (gate_list : List (QuantumGateBase V)) (state buffer : QuantumStateBase V) (sum : ℚ)
    (index position : Nat) :
    (∀ k, (QuantumGate_Instrument.loop ops r org_norm gate_list state buffer sum index
        position).committed = some k →
      position ≤ k ∧
      (QuantumGate_Instrument.loop ops r org_norm gate_list state buffer sum index
        position).index + position = index + k) ∧
    ((QuantumGate_Instrument.loop ops r org_norm gate_list state buffer sum index
        position).committed = none →
      (QuantumGate_Instrument.loop ops r org_norm gate_list state buffer sum index
        position).index = index + gate_list.length) := by
  induction gate_list generalizing buffer sum index position with
  | nil => simp [QuantumGate_Instrument.loop]
  | cons gate rest ih =>
    simp only [QuantumGate_Instrument.loop]
    split
    · refine ⟨fun k hk => ?_, fun h => ?_⟩
      · simp only [Option.some.injEq] at hk
        subst hk
        exact ⟨le_refl _, rfl⟩
      · simp at h
    · obtain ⟨h1, h2⟩ := ih (QuantumStateBase.load (gate buffer) state)
        (sum + (gate buffer).get_norm ops / org_norm) (index + 1) (position + 1)
      refine ⟨fun k hk => ?_, fun h => ?_⟩
      · obtain ⟨ha, hb⟩ := h1 k hk
        exact ⟨by omega, by omega⟩
      · rw [h2 h, List.length_cons]
        omega

theorem cptp_committed_some {V : Type} (ops : StateOps V) (g : QuantumGate_CPTP V) (r : ℚ)
    (state : QuantumStateBase V) (k : Nat)
    (h : (QuantumGate_CPTP.update_quantum_state ops g r state).committed = some k) :
    k < g._gate_list.length ∧
    (∀ j, j < k → running_sum ops state g._gate_list (j + 1) ≤ r) ∧
    r < running_sum ops state g._gate_list (k + 1) := by
  by_cases hex : ∃ i, i < g._gate_list.length ∧ r < running_sum ops state g._gate_list (i + 1)
  · obtain ⟨i, hi, hexceeds, hleast⟩ :=
      exists_least_exceeding (running_sum ops state g._gate_list) r g._gate_list.length hex
    rw [cptp_update_commit ops g r state i hi hleast hexceeds] at h
    simp only [Option.some.injEq] at h
    subst h
    exact ⟨hi, hleast, hexceeds⟩
  · have hall : ∀ j, j < g._gate_list.length →
        (0 : ℚ) + running_sum ops state g._gate_list (j + 1) ≤ r := by
      intro j hj
      rw [zero_add]
      exact not_lt.mp (fun hlt => hex ⟨j, hj, hlt⟩)
    have hloop := cptp_loop_reject ops r state g._gate_list 0 0 hall
    simp only [QuantumGate_CPTP.update_quantum_state, QuantumStateBase.copy, hloop] at h
    simp at h

theorem instrument_update_eq {V : Type} (ops : StateOps V) (gate_list : List (QuantumGateBase V))
    (address : Nat) (r : ℚ) (state : QuantumStateBase V) :
    (QuantumGate_Instrument.update_quantum_state ops
        { _gate_list := gate_list, _classical_register_address := address } r state).warning
      = (QuantumGate_CPTP.update_quantum_state ops { _gate_list := gate_list } r state).warning ∧
    (QuantumGate_Instrument.update_quantum_state ops
        { _gate_list := gate_list, _classical_register_address := address } r state).committed
      = (QuantumGate_CPTP.update_quantum_state ops { _gate_list := gate_list } r
          state).committed ∧
    (∀ k, (QuantumGate_CPTP.update_quantum_state ops { _gate_list := gate_list } r
        state).committed = some k →
      (QuantumGate_Instrument.update_quantum_state ops
        { _gate_list := gate_list, _classical_register_address := address } r state).state
      = (QuantumGate_CPTP.update_quantum_state ops { _gate_list := gate_list } r
          state).state.set_classical_value address k) ∧
    ((QuantumGate_CPTP.update_quantum_state ops { _gate_list := gate_list } r
        state).committed = none →
      (QuantumGate_Instrument.update_quantum_state ops
        { _gate_list := gate_list, _classical_register_address := address } r state).state
      = (QuantumGate_CPTP.update_quantum_state ops { _gate_list := gate_list } r
          state).state.set_classical_value address gate_list.length) := by
  obtain ⟨hst, hsum, hcom⟩ := instrument_loop_eq_cptp_loop ops r (state.get_norm ops)
    gate_list state state.copy 0 0 0
  obtain ⟨hidx1, hidx2⟩ := instrument_loop_index ops r (state.get_norm ops)
    gate_list state state.copy 0 0 0
  simp only [QuantumGate_Instrument.update_quantum_state,
    QuantumGate_CPTP.update_quantum_state]
  refine ⟨by rw [hsum], hcom, fun k hk => ?_, fun hnone => ?_⟩
  · rw [← hcom] at hk
    have := (hidx1 k hk).2
    simp only [Nat.add_zero, Nat.zero_add] at this
    rw [hst, this]
  · rw [← hcom] at hnone
    have := hidx2 hnone
    simp only [Nat.zero_add] at this
    rw [hst, this]

/-- C6. Whenever `QuantumGate_Instrument::update_quantum_state` commits the branch at list
position `k`, the candidates at the positions before `k` are exactly the rejected ones, and
after the call the classical register holds `k` at the configured address. -/
theorem instrument_outcome_recording {V : Type} (ops : StateOps V)
    (g : QuantumGate_Instrument V) (r : ℚ) (state : QuantumStateBase V) (k : Nat)
    (hcommit : (QuantumGate_Instrument.update_quantum_state ops g r state).committed
      = some k) :
    k < g._gate_list.length ∧
    (∀ j, j < k → ¬ r < running_sum ops state g._gate_list (j + 1)) ∧
    r < running_sum ops state g._gate_list (k + 1) ∧
    (QuantumGate_Instrument.update_quantum_state ops g r state).state.get_classical_value
      g._classical_register_address = k := by
  obtain ⟨_, hcom, hsome, _⟩ :=
    instrument_update_eq ops g._gate_list g._classical_register_address r state
  have hc : (QuantumGate_CPTP.update_quantum_state ops { _gate_list := g._gate_list } r
      state).committed = some k := by
    rw [← hcom]
    exact hcommit
  obtain ⟨hk, hleast, hexceeds⟩ :=
    cptp_committed_some ops { _gate_list := g._gate_list } r state k hc
  refine ⟨hk, fun j hj => not_lt.mpr (hleast j hj), hexceeds, ?_⟩
  have hstate := hsome k hc
  have hg : (QuantumGate_Instrument.update_quantum_state ops g r state).state
      = (QuantumGate_CPTP.update_quantum_state ops { _gate_list := g._gate_list } r
          state).state.set_classical_value g._classical_register_address k := hstate
  rw [hg]
  exact get_set_classical_value_same _ _ _

/-- Witness of C6: three branches of probabilities `1/4, 1/2, 1/4`, the draw `6/10` selecting
the second one, and the address `2`: the register reads `1` at address `2`. -/
theorem instrument_outcome_recording_witness :
    (QuantumGate_Instrument.update_quantum_state normOps
      { _gate_list := [scale_gate (1 / 4), scale_gate (1 / 2), scale_gate (1 / 4)]
        _classical_register_address := 2 }
      (6 / 10) unit_state).state.get_classical_value 2 = 1 :=
  (instrument_outcome_recording normOps
    { _gate_list := [scale_gate (1 / 4), scale_gate (1 / 2), scale_gate (1 / 4)]
      _classical_register_address := 2 }
    (6 / 10) unit_state 1
    (by
      simp [QuantumGate_Instrument.update_quantum_state, QuantumGate_Instrument.loop,
        QuantumStateBase.get_norm, QuantumStateBase.copy, QuantumStateBase.load, normOps,
        unit_state, scale_gate]
      norm_num)).2.2.2

/-- C7, as amended. For a draw `r ≥ 0` such that no running sum of branch probabilities
exceeds `r`, `QuantumGate_Instrument::update_quantum_state` commits no branch, writes the
warning, leaves the quantum contents unchanged, and writes the number `N` of branches at the
configured address of the classical register, every other address keeping its value. -/
theorem instrument_no_commit {V : Type} (ops : StateOps V)
    (g : QuantumGate_Instrument V) (r : ℚ) (state : QuantumStateBase V) (hr : 0 ≤ r)
    (hall : ∀ j, j < g._gate_list.length →
      ¬ r < running_sum ops state g._gate_list (j + 1)) :
    (QuantumGate_Instrument.update_quantum_state ops g r state).committed = none ∧
    (QuantumGate_Instrument.update_quantum_state ops g r state).warning = true ∧
    (QuantumGate_Instrument.update_quantum_state ops g r state).state
      = state.set_classical_value g._classical_register_address g._gate_list.length ∧
    (QuantumGate_Instrument.update_quantum_state ops g r state).state.data = state.data ∧
    (QuantumGate_Instrument.update_quantum_state ops g r state).state.get_classical_value
      g._classical_register_address = g._gate_list.length ∧
    (∀ other, other ≠ g._classical_register_address →
      (QuantumGate_Instrument.update_quantum_state ops g r state).state.get_classical_value
        other = state.get_classical_value other) := by
  obtain ⟨hwarn, hcom, _, hnone⟩ :=
    instrument_update_eq ops g._gate_list g._classical_register_address r state
  have hrej := cptp_update_reject ops { _gate_list := g._gate_list } r state hr
    (fun j hj => not_lt.mp (hall j hj))
  rw [hrej] at hwarn hcom hnone
  have hstate : (QuantumGate_Instrument.update_quantum_state ops g r state).state
      = state.set_classical_value g._classical_register_address g._gate_list.length :=
    hnone rfl
  refine ⟨hcom, hwarn, hstate, ?_, ?_, ?_⟩
  · rw [hstate]
    rfl
  · rw [hstate]
    exact get_set_classical_value_same _ _ _
  · intro other hother
    rw [hstate]
    exact get_set_classical_value_other _ _ _ _ hother

/-- Witness of C7 as amended: branch probabilities `1/2` and `3/10`, the draw `9/10`, the
address `0` and the register `[7]`. -/
theorem instrument_no_commit_witness :
    (QuantumGate_Instrument.update_quantum_state normOps
      { _gate_list := [scale_gate (1 / 2), scale_gate (3 / 10)]
        _classical_register_address := 0 }
      (9 / 10) unit_state).state
      = unit_state.set_classical_value 0 2 :=
  (instrument_no_commit normOps
    { _gate_list := [scale_gate (1 / 2), scale_gate (3 / 10)]
      _classical_register_address := 0 }
    (9 / 10) unit_state (by norm_num)
    (by
      intro j hj
      simp at hj
      interval_cases j <;>
        simp [running_sum, branch_probability, QuantumStateBase.get_norm, normOps,
          unit_state, scale_gate] <;> norm_num)).2.2.1

/-- Counterexample to C7 as stated: with branch probabilities `1/2` and `3/10` and the draw
`9/10` no running sum exceeds the draw and no branch commits, yet the register entry at the
configured address `0` changes from `7` to `2`. -/
theorem instrument_no_commit_counterexample :
    (∀ j, j < 2 → ¬ (9 / 10 : ℚ) < running_sum normOps unit_state
      [scale_gate (1 / 2), scale_gate (3 / 10)] (j + 1)) ∧
    (QuantumGate_Instrument.update_quantum_state normOps
      { _gate_list := [scale_gate (1 / 2), scale_gate (3 / 10)]
        _classical_register_address := 0 }
      (9 / 10) unit_state).committed = none ∧
    unit_state.get_classical_value 0 = 7 ∧
    (QuantumGate_Instrument.update_quantum_state normOps
      { _gate_list := [scale_gate (1 / 2), scale_gate (3 / 10)]
        _classical_register_address := 0 }
      (9 / 10) unit_state).state.get_classical_value 0 = 2 ∧
    (QuantumGate_Instrument.update_quantum_state normOps
      { _gate_list := [scale_gate (1 / 2), scale_gate (3 / 10)]
        _classical_register_address := 0 }
      (9 / 10) unit_state).state.classical_register ≠ unit_state.classical_register := by
  have hrun : ∀ j, j < 2 → ¬ (9 / 10 : ℚ) < running_sum normOps unit_state
      [scale_gate (1 / 2), scale_gate (3 / 10)] (j + 1) := by
    intro j hj
    interval_cases j <;>
      simp [running_sum, branch_probability, QuantumStateBase.get_norm, normOps,
        unit_state, scale_gate] <;> norm_num
  have heval : QuantumGate_Instrument.update_quantum_state normOps
      { _gate_list := [scale_gate (1 / 2), scale_gate (3 / 10)]
        _classical_register_address := 0 }
      (9 / 10) unit_state
      = { state := { data := 1, classical_register := [2] }
          warning := true
          committed := none } := by
    simp [QuantumGate_Instrument.update_quantum_state, QuantumGate_Instrument.loop,
      QuantumStateBase.get_norm, QuantumStateBase.copy, QuantumStateBase.load,
      QuantumStateBase.set_classical_value, normOps, unit_state, scale_gate]
    norm_num
  rw [heval]
  refine ⟨hrun, rfl, rfl, rfl, ?_⟩
  simp [unit_state]

/-- C8. `QuantumGate_Adaptive::update_quantum_state` returns the state unchanged when the
predicate is false on the full classical register of the state, and returns the state
produced by the wrapped gate when it is true. -/
theorem conditional_gating {V : Type} (g : QuantumGate_Adaptive V)
    (state : QuantumStateBase V) :
    (g._func state.get_classical_register = false → g.update_quantum_state state = state) ∧
    (g._func state.get_classical_register = true →
      g.update_quantum_state state = g._gate state) := by
  constructor
  · intro h
    simp [QuantumGate_Adaptive.update_quantum_state, h]
  · intro h
    simp [QuantumGate_Adaptive.update_quantum_state, h]

/-- Witness of C8: a predicate false on the register `[0]` and true on the register `[1]`. -/
theorem conditional_gating_witness :
    first_is_one [0] = false ∧ first_is_one [1] = true ∧
    QuantumGate_Adaptive.update_quantum_state
      { _gate := label_gate 5, _func := first_is_one } (labelled_state 0 [0])
      = labelled_state 0 [0] ∧
    QuantumGate_Adaptive.update_quantum_state
      { _gate := label_gate 5, _func := first_is_one } (labelled_state 0 [1])
      = label_gate 5 (labelled_state 0 [1]) :=
  ⟨by decide, by decide,
   (conditional_gating { _gate := label_gate 5, _func := first_is_one }
      (labelled_state 0 [0])).1 (by decide),
   (conditional_gating { _gate := label_gate 5, _func := first_is_one }
      (labelled_state 0 [1])).2 (by decide)⟩

/-- C10. For the same branch list, state and draw, `QuantumGate_Instrument` and
`QuantumGate_CPTP` leave the same quantum contents, write the warning in the same cases and
commit the same branch; the state after the instrument is the state after the channel map
with one value written at the configured address of the classical register. -/
theorem instrument_refines_channel {V : Type} (ops : StateOps V)
    (gate_list : List (QuantumGateBase V)) (address : Nat) (r : ℚ)
    (state : QuantumStateBase V) :
    (QuantumGate_Instrument.update_quantum_state ops
        { _gate_list := gate_list, _classical_register_address := address } r state).state.data
      = (QuantumGate_CPTP.update_quantum_state ops { _gate_list := gate_list } r
          state).state.data ∧
    (QuantumGate_Instrument.update_quantum_state ops
        { _gate_list := gate_list, _classical_register_address := address } r state).warning
      = (QuantumGate_CPTP.update_quantum_state ops { _gate_list := gate_list } r
          state).warning ∧
    (QuantumGate_Instrument.update_quantum_state ops
        { _gate_list := gate_list, _classical_register_address := address } r state).committed
      = (QuantumGate_CPTP.update_quantum_state ops { _gate_list := gate_list } r
          state).committed ∧
    ∃ value,
      (QuantumGate_Instrument.update_quantum_state ops
        { _gate_list := gate_list, _classical_register_address := address } r state).state
      = (QuantumGate_CPTP.update_quantum_state ops { _gate_list := gate_list } r
          state).state.set_classical_value address value := by
  obtain ⟨hwarn, hcom, hsome, hnone⟩ := instrument_update_eq ops gate_list address r state
  have hex : ∃ value,
      (QuantumGate_Instrument.update_quantum_state ops
        { _gate_list := gate_list, _classical_register_address := address } r state).state
      = (QuantumGate_CPTP.update_quantum_state ops { _gate_list := gate_list } r
          state).state.set_classical_value address value := by
    cases hc : (QuantumGate_CPTP.update_quantum_state ops { _gate_list := gate_list } r
        state).committed with
    | none => exact ⟨gate_list.length, hnone hc⟩
    | some k => exact ⟨k, hsome k hc⟩
  refine ⟨?_, hwarn, hcom, hex⟩
  obtain ⟨value, hv⟩ := hex
  rw [hv]
  rfl

/-! ### `copy` and `set_matrix` -/

theorem copy_loop_eq_map {V : Type} (item_copy : QuantumGateBase V → QuantumGateBase V)
    (gate_list new_gate_list : List (QuantumGateBase V)) :
    copy_loop item_copy gate_list new_gate_list
      = new_gate_list ++ gate_list.map item_copy := by
  induction gate_list generalizing new_gate_list with
  | nil => simp [copy_loop]
  | cons item rest ih => simp [copy_loop, ih]

/-- C11. For every instance built by the constructor, `copy()` yields an instance with the
same weight list, the same cumulative sequence, and a gate list of the same length whose
`k`-th entry is the copy of the `k`-th sub-operation of the original; for every draw the copy
locates the same position and computes the same `gate_index` as the original. -/
theorem probabilistic_copy {V : Type} (item_copy : QuantumGateBase V → QuantumGateBase V)
    (distribution : List ℚ) (gate_list : List (QuantumGateBase V)) :
    ((QuantumGate_Probabilistic.construct distribution gate_list).copy item_copy)._distribution
      = (QuantumGate_Probabilistic.construct distribution gate_list)._distribution ∧
    ((QuantumGate_Probabilistic.construct distribution
        gate_list).copy item_copy)._cumulative_distribution
      = (QuantumGate_Probabilistic.construct distribution gate_list)._cumulative_distribution ∧
    ((QuantumGate_Probabilistic.construct distribution
        gate_list).copy item_copy)._gate_list.length
      = (QuantumGate_Probabilistic.construct distribution gate_list)._gate_list.length ∧
    (∀ k (hk : k < gate_list.length),
      ((QuantumGate_Probabilistic.construct distribution
        gate_list).copy item_copy)._gate_list[k]?
        = some (item_copy (gate_list.get ⟨k, hk⟩))) ∧
    (∀ r : ℚ,
      ((QuantumGate_Probabilistic.construct distribution gate_list).copy item_copy).ite r
        = (QuantumGate_Probabilistic.construct distribution gate_list).ite r ∧
      ((QuantumGate_Probabilistic.construct distribution
        gate_list).copy item_copy).gate_index r
        = (QuantumGate_Probabilistic.construct distribution gate_list).gate_index r) := by
  have hlist : ((QuantumGate_Probabilistic.construct distribution
      gate_list).copy item_copy)._gate_list = gate_list.map item_copy := by
    simp [QuantumGate_Probabilistic.copy, QuantumGate_Probabilistic.construct,
      copy_loop_eq_map]
  refine ⟨rfl, rfl, ?_, ?_, fun r => ⟨rfl, rfl⟩⟩
  · rw [hlist]
    simp [QuantumGate_Probabilistic.construct]
  · intro k hk
    rw [hlist, List.getElem?_map, List.getElem?_eq_getElem hk]
    rfl

/-- C12. For each of the four gates, every instance and every previous content of the
matrix, `set_matrix` writes a line to `std::cerr` and sets the matrix to the `1 × 1` matrix
whose single entry is `1`, which is the `1 × 1` identity. -/
theorem set_matrix_placeholder {V : Type} (probabilistic : QuantumGate_Probabilistic V)
    (cptp : QuantumGate_CPTP V) (instrument : QuantumGate_Instrument V)
    (adaptive : QuantumGate_Adaptive V) (matrix : ComplexMatrix) :
    ((probabilistic.set_matrix matrix).matrix = [[((1 : ℚ), (0 : ℚ))]] ∧
      (probabilistic.set_matrix matrix).matrix = identity_matrix 1 ∧
      (probabilistic.set_matrix matrix).cerr ≠ []) ∧
    ((cptp.set_matrix matrix).matrix = [[((1 : ℚ), (0 : ℚ))]] ∧
      (cptp.set_matrix matrix).matrix = identity_matrix 1 ∧
      (cptp.set_matrix matrix).cerr ≠ []) ∧
    ((instrument.set_matrix matrix).matrix = [[((1 : ℚ), (0 : ℚ))]] ∧
      (instrument.set_matrix matrix).matrix = identity_matrix 1 ∧
      (instrument.set_matrix matrix).cerr ≠ []) ∧
    ((adaptive.set_matrix matrix).matrix = [[((1 : ℚ), (0 : ℚ))]] ∧
      (adaptive.set_matrix matrix).matrix = identity_matrix 1 ∧
      (adaptive.set_matrix matrix).cerr ≠ []) := by
  have hones : Ones 1 1 = [[((1 : ℚ), (0 : ℚ))]] := rfl
  have hid : identity_matrix 1 = [[((1 : ℚ), (0 : ℚ))]] := by
    simp [identity_matrix, List.range_succ]
  refine ⟨⟨?_, ?_, ?_⟩, ⟨?_, ?_, ?_⟩, ⟨?_, ?_, ?_⟩, ⟨?_, ?_, ?_⟩⟩ <;>
    simp [QuantumGate_Probabilistic.set_matrix, QuantumGate_CPTP.set_matrix,
      QuantumGate_Instrument.set_matrix, QuantumGate_Adaptive.set_matrix, hones, hid]

/-! ### The assertion of `QuantumGate_Probabilistic::update_quantum_state` -/

theorem probabilistic_ite_eq_zero_iff {V : Type} (distribution : List ℚ)
    (gate_list : List (QuantumGateBase V)) (hnonneg : ∀ w ∈ distribution, 0 ≤ w) (r : ℚ) :
    (QuantumGate_Probabilistic.construct distribution gate_list).ite r = 0 ↔ r ≤ 0 := by
  obtain ⟨_, hlo, hhi⟩ := probabilistic_ite_spec distribution gate_list hnonneg r
  have hzero := construct_cumulative_eq distribution gate_list 0 (Nat.zero_le _)
  simp only [List.take_zero, List.sum_nil] at hzero
  constructor
  · intro h0
    have := hhi 0 (by omega) (Nat.zero_le _)
    rwa [hzero] at this
  · intro hr
    by_contra hcon
    have := hlo 0 (Nat.pos_of_ne_zero hcon)
    rw [hzero] at this
    exact absurd hr (not_le.mpr this)

/-- C13, evaluated at the failing input: for the weights `[3/10, 7/10]` and the draw `0`,
which lies in `[0, 1)`, `std::lower_bound` returns the first position, the condition of
`assert(ite != _cumulative_distribution.begin())` is false, the subtraction wraps to
`2 ^ 64 - 1` and no sub-operation is applied. -/
theorem assertion_fails_at_zero :
    (∀ w ∈ [(3 : ℚ) / 10, 7 / 10], 0 ≤ w) ∧ (0 : ℚ) ≤ 0 ∧ (0 : ℚ) < 1 ∧
    (QuantumGate_Probabilistic.construct [(3 : ℚ) / 10, 7 / 10]
      [label_gate 1, label_gate 2]).ite 0 = 0 ∧
    (QuantumGate_Probabilistic.construct [(3 : ℚ) / 10, 7 / 10]
      [label_gate 1, label_gate 2]).assertion 0 = false ∧
    (QuantumGate_Probabilistic.construct [(3 : ℚ) / 10, 7 / 10]
      [label_gate 1, label_gate 2]).gate_index 0 = 2 ^ 64 - 1 ∧
    (QuantumGate_Probabilistic.construct [(3 : ℚ) / 10, 7 / 10]
      [label_gate 1, label_gate 2]).update_quantum_state 0 (labelled_state 0 [])
        = labelled_state 0 [] := by
  have hnonneg : ∀ w ∈ [(3 : ℚ) / 10, 7 / 10], 0 ≤ w := by
    intro w hw
    simp at hw
    rcases hw with h | h <;> rw [h] <;> norm_num
  have hite : (QuantumGate_Probabilistic.construct [(3 : ℚ) / 10, 7 / 10]
      [label_gate 1, label_gate 2]).ite 0 = 0 := by
    simp [QuantumGate_Probabilistic.ite, QuantumGate_Probabilistic.construct, cumulative_loop,
      lower_bound, lower_bound_loop]
    norm_num
  have hidx : (QuantumGate_Probabilistic.construct [(3 : ℚ) / 10, 7 / 10]
      [label_gate 1, label_gate 2]).gate_index 0 = 2 ^ 64 - 1 := by
    simp [QuantumGate_Probabilistic.gate_index, hite, SIZE_T_RANGE]
  refine ⟨hnonneg, le_refl _, by norm_num, hite, ?_, hidx, ?_⟩
  · simp [QuantumGate_Probabilistic.assertion, hite]
  · unfold QuantumGate_Probabilistic.update_quantum_state
    rw [dif_neg]
    rw [hidx]
    simp [QuantumGate_Probabilistic.construct]

/-- C14. For `N` non-negative weights and `N` sub-operations: a draw `r` with
`0 < r ≤ cumulative[N]` applies exactly the sub-operation at the unique index `i` with
`cumulative[i] < r ≤ cumulative[i+1]`; a draw `r > cumulative[N]` applies none; and for every
draw the method either applies no sub-operation or applies the single one at `gate_index`,
which then lies inside the gate list. -/
theorem lower_bound_characterisation {V : Type} (distribution : List ℚ)
    (gate_list : List (QuantumGateBase V)) (r : ℚ) (state : QuantumStateBase V)
    (hlen : distribution.length = gate_list.length)
    (hsize : gate_list.length < SIZE_T_RANGE)
    (hnonneg : ∀ w ∈ distribution, 0 ≤ w) :
    (0 < r →
      r ≤ (QuantumGate_Probabilistic.construct distribution gate_list).cumulative
        distribution.length →
      ∃ i, ∃ hi : i < gate_list.length,
        (QuantumGate_Probabilistic.construct distribution gate_list).cumulative i < r ∧
        r ≤ (QuantumGate_Probabilistic.construct distribution gate_list).cumulative (i + 1) ∧
        (∀ j, j < distribution.length →
          (QuantumGate_Probabilistic.construct distribution gate_list).cumulative j < r →
          r ≤ (QuantumGate_Probabilistic.construct distribution gate_list).cumulative (j + 1) →
          j = i) ∧
        (QuantumGate_Probabilistic.construct distribution gate_list).gate_index r = i ∧
        (QuantumGate_Probabilistic.construct distribution gate_list).update_quantum_state r
          state = gate_list.get ⟨i, hi⟩ state) ∧
    ((QuantumGate_Probabilistic.construct distribution gate_list).cumulative
        distribution.length < r →
      ¬ ((QuantumGate_Probabilistic.construct distribution gate_list).gate_index r
          < gate_list.length) ∧
      (QuantumGate_Probabilistic.construct distribution gate_list).update_quantum_state r state
        = state) ∧
    ((¬ ((QuantumGate_Probabilistic.construct distribution gate_list).gate_index r
          < gate_list.length) ∧
        (QuantumGate_Probabilistic.construct distribution gate_list).update_quantum_state r
          state = state) ∨
      ∃ hi : (QuantumGate_Probabilistic.construct distribution gate_list).gate_index r
          < gate_list.length,
        (QuantumGate_Probabilistic.construct distribution gate_list).update_quantum_state r
          state
          = gate_list.get
              ⟨(QuantumGate_Probabilistic.construct distribution gate_list).gate_index r, hi⟩
              state) := by
  refine ⟨fun hpos htotal => ?_, fun htotal => ?_, ?_⟩
  · obtain ⟨i, hi, h1, h2, h3, _, h5, h6⟩ :=
      probabilistic_select distribution gate_list r state hlen hsize hnonneg hpos htotal
    exact ⟨i, hi, h1, h2, h3, h5, h6⟩
  · obtain ⟨_, hidx⟩ :=
      probabilistic_beyond_total distribution gate_list r hlen hsize hnonneg htotal
    refine ⟨by omega, ?_⟩
    unfold QuantumGate_Probabilistic.update_quantum_state
    rw [dif_neg]
    rw [hidx]
    exact Nat.lt_irrefl _
  · by_cases hi : (QuantumGate_Probabilistic.construct distribution gate_list).gate_index r
        < gate_list.length
    · right
      refine ⟨hi, ?_⟩
      unfold QuantumGate_Probabilistic.update_quantum_state
      rw [dif_pos (show (QuantumGate_Probabilistic.construct distribution
        gate_list).gate_index r < (QuantumGate_Probabilistic.construct distribution
        gate_list)._gate_list.length from hi)]
      rfl
    · left
      refine ⟨hi, ?_⟩
      unfold QuantumGate_Probabilistic.update_quantum_state
      rw [dif_neg (show ¬ (QuantumGate_Probabilistic.construct distribution
        gate_list).gate_index r < (QuantumGate_Probabilistic.construct distribution
        gate_list)._gate_list.length from hi)]

/-- Witness of C14: weights `[3/10, 7/10]` and the draw `1`, equal to the total weight,
which applies the second sub-operation. -/
theorem lower_bound_characterisation_witness :
    ∃ i, ∃ hi : i < [label_gate 1, label_gate 2].length,
      (QuantumGate_Probabilistic.construct [(3 : ℚ) / 10, 7 / 10]
        [label_gate 1, label_gate 2]).cumulative i < 1 ∧
      (1 : ℚ) ≤ (QuantumGate_Probabilistic.construct [(3 : ℚ) / 10, 7 / 10]
        [label_gate 1, label_gate 2]).cumulative (i + 1) ∧
      (∀ j, j < [(3 : ℚ) / 10, 7 / 10].length →
        (QuantumGate_Probabilistic.construct [(3 : ℚ) / 10, 7 / 10]
          [label_gate 1, label_gate 2]).cumulative j < 1 →
        (1 : ℚ) ≤ (QuantumGate_Probabilistic.construct [(3 : ℚ) / 10, 7 / 10]
          [label_gate 1, label_gate 2]).cumulative (j + 1) →
        j = i) ∧
      (QuantumGate_Probabilistic.construct [(3 : ℚ) / 10, 7 / 10]
        [label_gate 1, label_gate 2]).gate_index 1 = i ∧
      (QuantumGate_Probabilistic.construct [(3 : ℚ) / 10, 7 / 10]
        [label_gate 1, label_gate 2]).update_quantum_state 1 (labelled_state 0 [])
        = [label_gate 1, label_gate 2].get ⟨i, hi⟩ (labelled_state 0 []) :=
  (lower_bound_characterisation [(3 : ℚ) / 10, 7 / 10] [label_gate 1, label_gate 2] 1
    (labelled_state 0 []) rfl (by simp [SIZE_T_RANGE])
    (by intro w hw; simp at hw; rcases hw with h | h <;> rw [h] <;> norm_num)).1
    (by norm_num)
    (by
      simp only [QuantumGate_Probabilistic.cumulative, QuantumGate_Probabilistic.construct,
        cumulative_loop]
      norm_num)

/-! ### The committed branch -/

theorem committed_probability_pos {V : Type} (ops : StateOps V)
    (gate_list : List (QuantumGateBase V)) (r : ℚ) (state : QuantumStateBase V) (hr : 0 ≤ r)
    (k : Nat)
    (hcommit : (QuantumGate_CPTP.update_quantum_state ops { _gate_list := gate_list } r
      state).committed = some k) :
    ∃ hk : k < gate_list.length,
      0 < branch_probability ops state (gate_list.get ⟨k, hk⟩) ∧
      (QuantumGate_CPTP.update_quantum_state ops { _gate_list := gate_list } r state).state
        = (gate_list.get ⟨k, hk⟩ state).normalize ops
            (branch_probability ops state (gate_list.get ⟨k, hk⟩)) := by
  obtain ⟨hk, hleast, hexceeds⟩ :=
    cptp_committed_some ops { _gate_list := gate_list } r state k hcommit
  have hk2 : k < gate_list.length := hk
  refine ⟨hk2, ?_, ?_⟩
  · have hbelow : running_sum ops state gate_list k ≤ r := by
      cases k with
      | zero => rw [running_sum_zero]; exact hr
      | succ j => exact hleast j (Nat.lt_succ_self j)
    have hsucc := running_sum_succ ops state gate_list k hk2
    have hex : r < running_sum ops state gate_list (k + 1) := hexceeds
    linarith
  · rw [cptp_update_commit ops { _gate_list := gate_list } r state k hk hleast hexceeds]

/-- C15. For a state of positive norm, branches whose norms after application are
non-negative and a draw `r ≥ 0`: whenever `QuantumGate_CPTP::update_quantum_state` or
`QuantumGate_Instrument::update_quantum_state` commits the branch at position `k`, the
branch probability of that branch, which is the value passed to `normalize`, is strictly
positive. -/
theorem committed_branch_positive {V : Type} (ops : StateOps V)
    (gate_list : List (QuantumGateBase V)) (address : Nat) (r : ℚ)
    (state : QuantumStateBase V)
    (hnorm : 0 < state.get_norm ops)
    (hnonneg : ∀ gate ∈ gate_list, 0 ≤ (gate state).get_norm ops)
    (hr : 0 ≤ r) (k : Nat) :
    ((QuantumGate_CPTP.update_quantum_state ops { _gate_list := gate_list } r
        state).committed = some k →
      ∃ hk : k < gate_list.length,
        0 < branch_probability ops state (gate_list.get ⟨k, hk⟩) ∧
        (QuantumGate_CPTP.update_quantum_state ops { _gate_list := gate_list } r state).state
          = (gate_list.get ⟨k, hk⟩ state).normalize ops
              (branch_probability ops state (gate_list.get ⟨k, hk⟩))) ∧
    ((QuantumGate_Instrument.update_quantum_state ops
        { _gate_list := gate_list, _classical_register_address := address } r
        state).committed = some k →
      ∃ hk : k < gate_list.length,
        0 < branch_probability ops state (gate_list.get ⟨k, hk⟩) ∧
        (QuantumGate_Instrument.update_quantum_state ops
          { _gate_list := gate_list, _classical_register_address := address } r state).state
          = ((gate_list.get ⟨k, hk⟩ state).normalize ops
              (branch_probability ops state (gate_list.get ⟨k, hk⟩))).set_classical_value
                address k) := by
  have _ := hnorm
  have _ := hnonneg
  refine ⟨fun hcommit => committed_probability_pos ops gate_list r state hr k hcommit,
    fun hcommit => ?_⟩
  obtain ⟨_, hcom, hsome, _⟩ := instrument_update_eq ops gate_list address r state
  rw [hcom] at hcommit
  obtain ⟨hk, hpos, hstate⟩ := committed_probability_pos ops gate_list r state hr k hcommit
  refine ⟨hk, hpos, ?_⟩
  rw [hsome k hcommit, hstate]

/-- Witness of C15: branches of probabilities `1/4, 1/2, 1/4` on a state of norm `1` and the
draw `6/10`, which commit the second branch. -/
theorem committed_branch_positive_witness :
    ∃ hk : 1 < [scale_gate (1 / 4), scale_gate (1 / 2), scale_gate (1 / 4)].length,
      0 < branch_probability normOps unit_state
        ([scale_gate (1 / 4), scale_gate (1 / 2), scale_gate (1 / 4)].get ⟨1, hk⟩) ∧
      (QuantumGate_CPTP.update_quantum_state normOps
        { _gate_list := [scale_gate (1 / 4), scale_gate (1 / 2), scale_gate (1 / 4)] }
        (6 / 10) unit_state).state
        = (([scale_gate (1 / 4), scale_gate (1 / 2), scale_gate (1 / 4)].get ⟨1, hk⟩)
            unit_state).normalize normOps
            (branch_probability normOps unit_state
              ([scale_gate (1 / 4), scale_gate (1 / 2), scale_gate (1 / 4)].get ⟨1, hk⟩)) :=
  (committed_branch_positive normOps
    [scale_gate (1 / 4), scale_gate (1 / 2), scale_gate (1 / 4)] 0 (6 / 10) unit_state
    (by simp [QuantumStateBase.get_norm, normOps, unit_state])
    (by
      intro gate hgate
      simp at hgate
      rcases hgate with h | h | h <;> rw [h] <;>
        simp [QuantumStateBase.get_norm, normOps, unit_state, scale_gate])
    (by norm_num) 1).1
    (by
      simp [QuantumGate_CPTP.update_quantum_state, QuantumGate_CPTP.loop,
        QuantumStateBase.get_norm, QuantumStateBase.copy, QuantumStateBase.load, normOps,
        unit_state, scale_gate]
      norm_num)

end Qulacs
